import Mathlib

/-!
Formal model of the CardioSense heart-sound inference pipeline:
`backend/app/services/ai_service.py` (class `HeartSoundClassifier`),
`backend/app/services/ai_service_calibrated.py` (class
`HeartSoundClassifierCalibrated`) and the upload route
`backend/app/routes/pcg.py` (`run_ai_analysis`).

Modelling conventions:
* Python floats are modelled by `ℝ`; numpy arrays of shape `(1, 2)` by
  pairs `ℝ × ℝ`; 1-D audio buffers by `List ℝ`; MFCC matrices (frames ×
  coefficients) by `List (List ℝ)`.
* Library calls whose internals are outside the repository
  (`scipy.signal.filtfilt`, `scipy.signal.resample`,
  `librosa.feature.mfcc`) are abstracted as function parameters; the
  properties proved about the repository's framing code assume only the
  libraries' documented contracts (`resample(x, num)` returns exactly
  `num` samples, `mfcc` returns `n_mfcc` coefficients per frame).
* `round(x, 2)` in Python rounds to two decimals with ties to even
  (banker's rounding); it is modelled by `round2` below.
-/

namespace CardioSense

/-! ## Model configuration (ai_service_calibrated.py lines 19-27) -/

/-- `FS_TARGET = 2000` — sampling rate (Hz). -/
def FS_TARGET : ℕ := 2000

/-- `DURATION = 3.0` — seconds. -/
def DURATION : ℝ := 3

/-- `ANALOG_LEN = 250` — CNN input length. -/
def ANALOG_LEN : ℕ := 250

/-- `MFCC_LEN = 38` — LSTM input length (time frames). -/
def MFCC_LEN : ℕ := 38

/-- `N_MFCC = 20` — number of MFCC coefficients. -/
def N_MFCC : ℕ := 20

/-- `TEMPERATURE = 2.5` — temperature for softmax scaling. -/
noncomputable def TEMPERATURE : ℝ := 5 / 2

/-- `epsilon = 1e-7` — clipping bound used in `predict` (line 211) to
prevent `log(0)`. -/
noncomputable def epsilon : ℝ := 1 / 10000000

/-- `max_len = int(self.FS_TARGET * self.DURATION)` = `int(2000 * 3.0)`
= 6000 samples (preprocess_heart_sound, line 136). -/
def maxLen : ℕ := 6000

/-! ## Audio normalization: pad or trim to fixed length
(preprocess_heart_sound, lines 136-140)

```python
max_len = int(self.FS_TARGET * self.DURATION)
if len(audio) > max_len:
    audio = audio[:max_len]
else:
    audio = np.pad(audio, (0, max_len - len(audio)))
```
-/

/-- Pad or trim the decoded audio to exactly `maxLen` samples. -/
def padOrTrim (audio : List ℝ) : List ℝ :=
  if maxLen < audio.length then
    audio.take maxLen
  else
    audio ++ List.replicate (maxLen - audio.length) 0

/-! ## Feature extraction framing (preprocess_heart_sound, lines 142-160)

The analog branch applies a Butterworth band-pass filter (`filtfilt`)
and then `scipy.signal.resample(analog, ANALOG_LEN)`; the spectral
branch computes `librosa.feature.mfcc(...).T` and pads/trims the frame
axis to `MFCC_LEN`.  The filter, resampler and MFCC transform are
external library calls, taken as parameters below. -/

/-- Analog branch: band-pass filter, then resample to `ANALOG_LEN`
samples (lines 144-148).  `filtfilt` and `sciResample` stand for
`scipy.signal.filtfilt(b, a, ·)` and `scipy.signal.resample`. -/
def preprocessAnalog (filtfilt : List ℝ → List ℝ)
    (sciResample : List ℝ → ℕ → List ℝ) (audio : List ℝ) : List ℝ :=
  sciResample (filtfilt (padOrTrim audio)) ANALOG_LEN

/-- Pad or trim the MFCC frame axis to exactly `MFCC_LEN` frames
(lines 155-158); missing frames are all-zero coefficient rows. -/
def mfccPadTrim (m : List (List ℝ)) : List (List ℝ) :=
  if MFCC_LEN < m.length then
    m.take MFCC_LEN
  else
    m ++ List.replicate (MFCC_LEN - m.length) (List.replicate N_MFCC 0)

/-- Spectral branch: MFCC transform (transposed so frames lead), then
pad/trim to `MFCC_LEN` frames (lines 152-160).  `mfcc` stands for
`librosa.feature.mfcc(y=·, sr=FS_TARGET, n_mfcc=N_MFCC).T`. -/
def preprocessMfcc (mfcc : List ℝ → List (List ℝ)) (audio : List ℝ) :
    List (List ℝ) :=
  mfccPadTrim (mfcc (padOrTrim audio))

/-! ## Confidence calibration
(`_apply_temperature_scaling`, lines 164-181, and `predict`, lines 209-216) -/

/-- `np.clip(x, epsilon, 1 - epsilon)` for a scalar (predict, line 212). -/
noncomputable def clipProb (x : ℝ) : ℝ :=
  min (max x epsilon) (1 - epsilon)

/-- `_apply_temperature_scaling` (lines 164-181): divide the logits by
the temperature, then softmax with the max-subtraction trick:

```python
scaled_logits = logits / self.TEMPERATURE
exp_logits = np.exp(scaled_logits - np.max(scaled_logits, axis=1, keepdims=True))
probabilities = exp_logits / np.sum(exp_logits, axis=1, keepdims=True)
```
-/
noncomputable def applyTemperatureScaling (logits : ℝ × ℝ) (T : ℝ) : ℝ × ℝ :=
  (Real.exp (logits.1 / T - max (logits.1 / T) (logits.2 / T)) /
      (Real.exp (logits.1 / T - max (logits.1 / T) (logits.2 / T)) +
        Real.exp (logits.2 / T - max (logits.1 / T) (logits.2 / T))),
    Real.exp (logits.2 / T - max (logits.1 / T) (logits.2 / T)) /
      (Real.exp (logits.1 / T - max (logits.1 / T) (logits.2 / T)) +
        Real.exp (logits.2 / T - max (logits.1 / T) (logits.2 / T))))

/-- The full calibration step of `predict` (lines 211-216): clip the raw
softmax output away from 0 and 1, take logs to recover logits, then
apply temperature scaling. -/
noncomputable def calibrate (raw : ℝ × ℝ) (T : ℝ) : ℝ × ℝ :=
  applyTemperatureScaling
    (Real.log (clipProb raw.1), Real.log (clipProb raw.2)) T

/-- Plain textbook softmax of a pair of scores (no max subtraction). -/
noncomputable def softmaxPair (s : ℝ × ℝ) : ℝ × ℝ :=
  (Real.exp s.1 / (Real.exp s.1 + Real.exp s.2),
    Real.exp s.2 / (Real.exp s.1 + Real.exp s.2))

/-- Reference definition of the calibration step, stated from the spec:
softmax applied to `log(clip(p, 1e-7, 1 - 1e-7))` divided by the
temperature. -/
noncomputable def calibrateSpec (raw : ℝ × ℝ) (T : ℝ) : ℝ × ℝ :=
  softmaxPair
    (Real.log (clipProb raw.1) / T, Real.log (clipProb raw.2) / T)

/-- `int(np.argmax([x1, x2]))`: index of the first maximum (0 on ties). -/
noncomputable def pairArgmax (x : ℝ × ℝ) : ℕ :=
  if x.1 < x.2 then 1 else 0

/-- `np.max([x1, x2])`. -/
noncomputable def pairMax (x : ℝ × ℝ) : ℝ :=
  max x.1 x.2

/-! ## Rounding to two decimals

`round(value, 2)` in Python rounds half to even (banker's rounding). -/

open Classical in
/-- Round a real to the nearest integer, ties to even (Python `round`).
On a tie the value `x = k + 1/2` is sent to the even integer nearest
`x`, which is `2 * round (x / 2)`. -/
noncomputable def rhe (x : ℝ) : ℤ :=
  if Int.fract x = 1 / 2 then 2 * round (x / 2) else round x

/-- Python `round(x, 2)`. -/
noncomputable def round2 (x : ℝ) : ℝ :=
  (rhe (x * 100) : ℝ) / 100

/-! ## Prediction results

`predict` returns a dict with the label, the confidence and both class
probabilities as percentages rounded to two decimals (calibrated
variant: lines 219-237; uncalibrated variant: ai_service.py lines
175-191).  The model's raw softmax output (`self.model.predict`) is an
opaque trained artifact; it enters the embedding as the argument
`raw : ℝ × ℝ`. -/

/-- The fields of the returned classification dict consumed by the
persistence layer. -/
structure PredictionResult where
  label : String
  confidence : ℝ
  probNormal : ℝ
  probAbnormal : ℝ

/-- `HeartSoundClassifierCalibrated.predict` (lines 202-237), as a
function of the model's raw softmax output:

```python
raw_prediction = np.clip(raw_prediction, epsilon, 1 - epsilon)
logits = np.log(raw_prediction)
calibrated_pred = self._apply_temperature_scaling(logits)
cls = int(np.argmax(calibrated_pred[0]))
confidence = float(calibrated_pred[0][cls]) * 100
prob_normal = float(calibrated_pred[0][0]) * 100
prob_abnormal = float(calibrated_pred[0][1]) * 100
label = "NORMAL" if cls == 0 else "ABNORMAL"
result = {"label": label, "confidence": round(confidence, 2),
          "probabilities": {"normal": round(prob_normal, 2),
                            "abnormal": round(prob_abnormal, 2)}, ...}
```
-/
noncomputable def predictCalibrated (raw : ℝ × ℝ) : PredictionResult where
  label :=
    if pairArgmax (calibrate raw TEMPERATURE) = 0 then "NORMAL"
    else "ABNORMAL"
  confidence :=
    round2 ((if pairArgmax (calibrate raw TEMPERATURE) = 0 then
        (calibrate raw TEMPERATURE).1
      else (calibrate raw TEMPERATURE).2) * 100)
  probNormal := round2 ((calibrate raw TEMPERATURE).1 * 100)
  probAbnormal := round2 ((calibrate raw TEMPERATURE).2 * 100)

/-- `HeartSoundClassifier.predict` (ai_service.py lines 167-191): same
post-processing but on the raw softmax output directly, with no
calibration step. -/
noncomputable def predictUncalibrated (raw : ℝ × ℝ) : PredictionResult where
  label := if pairArgmax raw = 0 then "NORMAL" else "ABNORMAL"
  confidence :=
    round2 ((if pairArgmax raw = 0 then raw.1 else raw.2) * 100)
  probNormal := round2 (raw.1 * 100)
  probAbnormal := round2 (raw.2 * 100)

/-- `run_ai_analysis` (pcg.py lines 30-42) imports `get_classifier`
from `app.services.ai_service` — the uncalibrated variant — and calls
its `predict`. -/
noncomputable def runAiAnalysis (raw : ℝ × ℝ) : PredictionResult :=
  predictUncalibrated raw

/-! ## Lazy singleton classifier accessor
(`get_classifier_calibrated`, ai_service_calibrated.py lines 249-275)

The loading logic is independent of the numeric type of the
temperature, which is modelled by `ℚ` here so that states compare
decidably. -/

/-- Default model path used when `model_path is None` (lines 266-272). -/
def defaultModelPath : String := "ai/hybrid_cnn_lstm_heart_sound_final.h5"

/-- The constructed classifier instance: `__init__` stores the model
path whose weights were loaded and the temperature (lines 29-59). -/
structure CalibratedClassifier where
  modelPath : String
  temperature : ℚ
deriving DecidableEq

/-- `HeartSoundClassifierCalibrated(model_path, temperature)`: building
the instance is the only operation that loads weights from storage. -/
def initClassifier (modelPath : String) (temperature : ℚ) :
    CalibratedClassifier :=
  ⟨modelPath, temperature⟩

/-- One call to `get_classifier_calibrated(model_path, temperature)`
(lines 252-275) as a transition on the module-level
`_classifier_instance` state: construct on `none`, otherwise return the
cached instance unchanged.  Returns the new state and the instance
handed to the caller. -/
def getClassifierCalibrated (st : Option CalibratedClassifier)
    (modelPath : Option String) (temperature : ℚ) :
    Option CalibratedClassifier × CalibratedClassifier :=
  match st with
  | some inst => (some inst, inst)
  | none =>
      let inst := initClassifier (modelPath.getD defaultModelPath)
        temperature
      (some inst, inst)

/-- Run a sequence of `get_classifier_calibrated` calls, threading the
module-level state; returns the final state and the instances returned
to the callers, in order. -/
def runCalls (st : Option CalibratedClassifier)
    (calls : List (Option String × ℚ)) :
    Option CalibratedClassifier × List CalibratedClassifier :=
  match calls with
  | [] => (st, [])
  | c :: rest =>
      let step := getClassifierCalibrated st c.1 c.2
      let tail := runCalls step.1 rest
      (tail.1, step.2 :: tail.2)

/-! ## Helper lemmas: clipping -/

lemma epsilon_pos : (0 : ℝ) < epsilon := by norm_num [epsilon]

lemma epsilon_lt_half : epsilon < (1 : ℝ) / 2 := by norm_num [epsilon]

/-- Clipping is the identity on values already inside the clip range. -/
lemma clipProb_eq {x : ℝ} (h1 : epsilon ≤ x) (h2 : x ≤ 1 - epsilon) :
    clipProb x = x := by
  rw [clipProb, max_eq_left h1, min_eq_left h2]

/-- The clipped value is at least `epsilon`, in particular positive. -/
lemma epsilon_le_clipProb (x : ℝ) : epsilon ≤ clipProb x := by
  refine le_min (le_max_right _ _) ?_
  have := epsilon_lt_half
  linarith

lemma clipProb_pos (x : ℝ) : 0 < clipProb x :=
  lt_of_lt_of_le epsilon_pos (epsilon_le_clipProb x)

/-- For a complementary pair `a + b = 1` with `a < b`, clipping keeps
the strict order: the smaller lands strictly below `1/2`, the larger
strictly above. -/
lemma clipProb_lt_clipProb {a b : ℝ} (hab : a < b) (hsum : a + b = 1) :
    clipProb a < clipProb b := by
  have ha2 : a < 1 / 2 := by linarith
  have hb2 : 1 / 2 < b := by linarith
  have h1 : clipProb a < 1 / 2 := by
    have hm : max a epsilon < 1 / 2 := max_lt ha2 epsilon_lt_half
    exact lt_of_le_of_lt (min_le_left _ _) hm
  have h2 : 1 / 2 < clipProb b := by
    refine lt_min (lt_of_lt_of_le hb2 (le_max_left _ _)) ?_
    have := epsilon_lt_half
    linarith
  linarith

/-! ## Helper lemmas: temperature scaling -/

/-- The two calibrated scores always sum to exactly 1. -/
lemma applyTemperatureScaling_sum (logits : ℝ × ℝ) (T : ℝ) :
    (applyTemperatureScaling logits T).1 +
      (applyTemperatureScaling logits T).2 = 1 := by
  rw [applyTemperatureScaling]
  have h1 := Real.exp_pos (logits.1 / T - max (logits.1 / T) (logits.2 / T))
  have h2 := Real.exp_pos (logits.2 / T - max (logits.1 / T) (logits.2 / T))
  field_simp

lemma calibrate_sum (raw : ℝ × ℝ) (T : ℝ) :
    (calibrate raw T).1 + (calibrate raw T).2 = 1 :=
  applyTemperatureScaling_sum _ T

/-- Temperature scaling keeps the strict order of the logits. -/
lemma applyTemperatureScaling_lt {l1 l2 : ℝ} (T : ℝ)
    (h : l1 / T < l2 / T) :
    (applyTemperatureScaling (l1, l2) T).1 <
      (applyTemperatureScaling (l1, l2) T).2 := by
  rw [applyTemperatureScaling]
  have he : Real.exp (l1 / T - max (l1 / T) (l2 / T)) <
      Real.exp (l2 / T - max (l1 / T) (l2 / T)) :=
    Real.exp_lt_exp.mpr (by linarith)
  have hd : 0 < Real.exp (l1 / T - max (l1 / T) (l2 / T)) +
      Real.exp (l2 / T - max (l1 / T) (l2 / T)) := by
    have := Real.exp_pos (l1 / T - max (l1 / T) (l2 / T))
    have := Real.exp_pos (l2 / T - max (l1 / T) (l2 / T))
    linarith
  exact (div_lt_div_right hd).mpr he

/-- Temperature scaling of equal logits yields equal scores. -/
lemma applyTemperatureScaling_eq {l1 l2 : ℝ} (T : ℝ) (h : l1 = l2) :
    (applyTemperatureScaling (l1, l2) T).1 =
      (applyTemperatureScaling (l1, l2) T).2 := by
  subst h
  rfl

/-- How the calibrated pair compares is exactly how the raw
complementary pair compares: the calibration chain
clip → log → divide by `T` → softmax is strictly monotone. -/
lemma calibrate_lt {p : ℝ} {T : ℝ} (hT : 0 < T) (h : p < 1 - p) :
    (calibrate (p, 1 - p) T).1 < (calibrate (p, 1 - p) T).2 := by
  have hclip : clipProb p < clipProb (1 - p) :=
    clipProb_lt_clipProb h (by ring)
  have hlog : Real.log (clipProb p) < Real.log (clipProb (1 - p)) :=
    Real.log_lt_log (clipProb_pos p) hclip
  exact applyTemperatureScaling_lt T ((div_lt_div_right hT).mpr hlog)

/-- Symmetric version of `calibrate_lt`. -/
lemma calibrate_gt {p : ℝ} {T : ℝ} (hT : 0 < T) (h : 1 - p < p) :
    (calibrate (p, 1 - p) T).2 < (calibrate (p, 1 - p) T).1 := by
  have hclip : clipProb (1 - p) < clipProb p :=
    clipProb_lt_clipProb h (by ring)
  have hlog : Real.log (clipProb (1 - p)) < Real.log (clipProb p) :=
    Real.log_lt_log (clipProb_pos (1 - p)) hclip
  have := applyTemperatureScaling_lt T
    ((div_lt_div_right hT).mpr hlog)
  -- `applyTemperatureScaling` with swapped logits swaps the components
  rw [calibrate]
  rw [applyTemperatureScaling] at this ⊢
  simpa [max_comm, add_comm] using this

/-- Shared core of claims C2 and C4: calibration never changes the
argmax of a complementary score pair. -/
lemma pairArgmax_calibrate {p T : ℝ} (hT : 0 < T) :
    pairArgmax (calibrate (p, 1 - p) T) = pairArgmax (p, 1 - p) := by
  rcases lt_trichotomy p (1 - p) with h | h | h
  · have := calibrate_lt hT h
    rw [pairArgmax, pairArgmax, if_pos this, if_pos h]
  · have hcal : (calibrate (p, 1 - p) T).1 = (calibrate (p, 1 - p) T).2 := by
      rw [calibrate]
      exact applyTemperatureScaling_eq T (by rw [← h])
    rw [pairArgmax, pairArgmax, if_neg (by rw [hcal]; exact lt_irrefl _),
      if_neg (by rw [← h]; exact lt_irrefl _)]
  · have := calibrate_gt hT h
    rw [pairArgmax, pairArgmax, if_neg (not_lt.mpr this.le),
      if_neg (not_lt.mpr h.le)]

/-- Swapping the two logits swaps the two calibrated scores. -/
lemma applyTemperatureScaling_swap (l1 l2 T : ℝ) :
    applyTemperatureScaling (l2, l1) T =
      ((applyTemperatureScaling (l1, l2) T).2,
        (applyTemperatureScaling (l1, l2) T).1) := by
  rw [applyTemperatureScaling, applyTemperatureScaling]
  simp only [max_comm (l2 / T) (l1 / T), add_comm
    (Real.exp (l2 / T - max (l1 / T) (l2 / T)))
    (Real.exp (l1 / T - max (l1 / T) (l2 / T)))]

/-- Closed form for the larger calibrated score when `l1 ≤ l2`. -/
lemma pairMax_applyTemperatureScaling_of_le {l1 l2 T : ℝ} (hT : 0 < T)
    (h : l1 ≤ l2) :
    pairMax (applyTemperatureScaling (l1, l2) T) =
      1 / (1 + Real.exp (-|l1 - l2| / T)) := by
  have hdivle : l1 / T ≤ l2 / T := (div_le_div_right hT).mpr h
  have hmax : max (l1 / T) (l2 / T) = l2 / T := max_eq_right hdivle
  rw [pairMax, applyTemperatureScaling]
  simp only [hmax, sub_self, Real.exp_zero]
  have hle : Real.exp (l1 / T - l2 / T) ≤ 1 := by
    rw [show (1 : ℝ) = Real.exp 0 from (Real.exp_zero).symm]
    exact Real.exp_le_exp.mpr (by linarith)
  have hpos : 0 < Real.exp (l1 / T - l2 / T) + 1 := by
    have := Real.exp_pos (l1 / T - l2 / T)
    linarith
  rw [max_eq_right ((div_le_div_right hpos).mpr hle)]
  have habs : -|l1 - l2| / T = l1 / T - l2 / T := by
    rw [abs_of_nonpos (sub_nonpos.mpr h)]
    ring
  rw [habs, add_comm]

/-- Closed form for the larger calibrated score: with logit gap
`d = |l1 - l2|`, the maximum after temperature scaling is
`1 / (1 + exp (-d / T))`. -/
lemma pairMax_applyTemperatureScaling {T : ℝ} (l1 l2 : ℝ) (hT : 0 < T) :
    pairMax (applyTemperatureScaling (l1, l2) T) =
      1 / (1 + Real.exp (-|l1 - l2| / T)) := by
  rcases le_total l1 l2 with h | h
  · exact pairMax_applyTemperatureScaling_of_le hT h
  · rw [applyTemperatureScaling_swap l2 l1 T, pairMax, max_comm]
    rw [show |l1 - l2| = |l2 - l1| from abs_sub_comm l1 l2]
    exact pairMax_applyTemperatureScaling_of_le hT h

/-- Shared core of claim C7: the larger calibrated score strictly
decreases as the temperature increases, as long as the two logits
differ. -/
lemma pairMax_applyTemperatureScaling_strictAnti {l1 l2 T1 T2 : ℝ}
    (hne : l1 ≠ l2) (hT1 : 0 < T1) (hT12 : T1 < T2) :
    pairMax (applyTemperatureScaling (l1, l2) T2) <
      pairMax (applyTemperatureScaling (l1, l2) T1) := by
  have hT2 : 0 < T2 := lt_trans hT1 hT12
  have hd : 0 < |l1 - l2| := abs_pos.mpr (sub_ne_zero.mpr hne)
  rw [pairMax_applyTemperatureScaling l1 l2 hT1,
    pairMax_applyTemperatureScaling l1 l2 hT2]
  have hdiv : |l1 - l2| / T2 < |l1 - l2| / T1 :=
    div_lt_div_of_pos_left hd hT1 hT12
  have hexp : Real.exp (-|l1 - l2| / T1) < Real.exp (-|l1 - l2| / T2) := by
    apply Real.exp_lt_exp.mpr
    rw [neg_div, neg_div]
    linarith
  have hpos : 0 < 1 + Real.exp (-|l1 - l2| / T1) := by
    have := Real.exp_pos (-|l1 - l2| / T1)
    linarith
  exact one_div_lt_one_div_of_lt hpos (by linarith)

/-- The max-subtraction trick is semantically transparent: temperature
scaling equals the plain softmax of the scaled logits. -/
lemma applyTemperatureScaling_eq_softmax (l1 l2 T : ℝ) :
    applyTemperatureScaling (l1, l2) T =
      softmaxPair (l1 / T, l2 / T) := by
  rw [applyTemperatureScaling, softmaxPair]
  simp only [Prod.mk.injEq]
  have h1 := Real.exp_pos (l1 / T)
  have h2 := Real.exp_pos (l2 / T)
  have hm := Real.exp_pos (max (l1 / T) (l2 / T))
  rw [Real.exp_sub, Real.exp_sub]
  have hsum : Real.exp (l1 / T) + Real.exp (l2 / T) ≠ 0 := by positivity
  constructor
  · rw [div_add_div_same, div_div_div_cancel_right₀ (ne_of_gt hm)]
  · rw [div_add_div_same, div_div_div_cancel_right₀ (ne_of_gt hm)]

/-- The logits of a complementary pair with `p ≠ 1/2` differ. -/
lemma log_clipProb_ne {p : ℝ} (hp : p ≠ 1 / 2) :
    Real.log (clipProb p) ≠ Real.log (clipProb (1 - p)) := by
  rcases lt_trichotomy p (1 - p) with h | h | h
  · exact ne_of_lt (Real.log_lt_log (clipProb_pos p)
      (clipProb_lt_clipProb h (by ring)))
  · exact absurd (by linarith) hp
  · exact (ne_of_lt (Real.log_lt_log (clipProb_pos (1 - p))
      (clipProb_lt_clipProb h (by ring)))).symm

/-! ## Helper lemmas: evaluating the calibration at concrete inputs -/

/-- Evaluate the calibration chain on a raw pair inside the clip range
with `p1 ≤ p2`, in terms of `c = exp((log p1 - log p2) / T)`. -/
lemma calibrate_eval {p1 p2 T c : ℝ} (hT : 0 < T)
    (h1 : epsilon ≤ p1) (h1' : p1 ≤ 1 - epsilon)
    (h2 : epsilon ≤ p2) (h2' : p2 ≤ 1 - epsilon) (hle : p1 ≤ p2)
    (hc : Real.exp ((Real.log p1 - Real.log p2) / T) = c) :
    calibrate (p1, p2) T = (c / (c + 1), 1 / (c + 1)) := by
  have hp1 : 0 < p1 := lt_of_lt_of_le epsilon_pos h1
  have hp2 : 0 < p2 := lt_of_lt_of_le epsilon_pos h2
  have hlog : Real.log p1 ≤ Real.log p2 :=
    (Real.log_le_log_iff hp1 hp2).mpr hle
  have hdivle : Real.log p1 / T ≤ Real.log p2 / T :=
    (div_le_div_right hT).mpr hlog
  rw [calibrate]
  simp only
  rw [clipProb_eq h1 h1', clipProb_eq h2 h2', applyTemperatureScaling]
  simp only
  rw [max_eq_right hdivle, sub_self, Real.exp_zero,
    show Real.log p1 / T - Real.log p2 / T =
      (Real.log p1 - Real.log p2) / T by ring, hc]

/-- Calibrating the raw pair `(1/33, 32/33)` at `T = 2.5` gives exactly
`(1/5, 4/5)`: the logit gap is `log 32 = 5 log 2`, scaled to `2 log 2`,
so the odds ratio becomes `4`. -/
lemma calibrate_one33 :
    calibrate (1 / 33, 32 / 33) TEMPERATURE = (1 / 5, 4 / 5) := by
  have hc : Real.exp ((Real.log (1 / 33) - Real.log (32 / 33)) /
      TEMPERATURE) = 1 / 4 := by
    have hlog1 : Real.log (1 / 33 : ℝ) = -Real.log 33 := by
      rw [one_div, Real.log_inv]
    have hlog2 : Real.log (32 / 33 : ℝ) = Real.log 32 - Real.log 33 :=
      Real.log_div (by norm_num) (by norm_num)
    have hlog32 : Real.log (32 : ℝ) = 5 * Real.log 2 := by
      rw [show (32 : ℝ) = 2 ^ 5 by norm_num, Real.log_pow]
      norm_num
    rw [hlog1, hlog2, hlog32, TEMPERATURE,
      show -Real.log 33 - (5 * Real.log 2 - Real.log 33) =
        -(5 * Real.log 2) by ring,
      show -(5 * Real.log 2) / (5 / 2) = -(Real.log 2 + Real.log 2) by
        ring,
      Real.exp_neg, Real.exp_add, Real.exp_log (by norm_num : (0 : ℝ) < 2)]
    norm_num
  have := calibrate_eval (by rw [TEMPERATURE]; norm_num)
    (by rw [epsilon]; norm_num) (by rw [epsilon]; norm_num)
    (by rw [epsilon]; norm_num) (by rw [epsilon]; norm_num)
    (by norm_num) hc
  rw [this]
  norm_num

/-- Calibrating the raw pair
`(1/(1+4√2), 4√2/(1+4√2))` at `T = 2.5` gives exactly `(1/3, 2/3)`:
the logit gap is `log (4√2) = (5/2) log 2`, scaled to `log 2`, so the
odds ratio becomes `2`. -/
lemma calibrate_sqrt2 :
    calibrate (1 / (1 + 4 * Real.sqrt 2),
      4 * Real.sqrt 2 / (1 + 4 * Real.sqrt 2)) TEMPERATURE =
      (1 / 3, 2 / 3) := by
  have hs1 : 1 < Real.sqrt 2 :=
    (Real.lt_sqrt (by norm_num)).mpr (by norm_num)
  have hs2 : Real.sqrt 2 < 3 / 2 :=
    (Real.sqrt_lt' (by norm_num)).mpr (by norm_num)
  have hspos : 0 < Real.sqrt 2 := by linarith
  have hD5 : 5 < 1 + 4 * Real.sqrt 2 := by linarith
  have hD7 : 1 + 4 * Real.sqrt 2 < 7 := by linarith
  have hDpos : 0 < 1 + 4 * Real.sqrt 2 := by linarith
  have hDne : 1 + 4 * Real.sqrt 2 ≠ 0 := ne_of_gt hDpos
  have hp1lb : (1 : ℝ) / 7 < 1 / (1 + 4 * Real.sqrt 2) := by
    rw [div_lt_div_iff (by norm_num) hDpos]
    linarith
  have hp1ub : 1 / (1 + 4 * Real.sqrt 2) < 1 / 5 := by
    rw [div_lt_div_iff hDpos (by norm_num)]
    linarith
  have hp2eq : 4 * Real.sqrt 2 / (1 + 4 * Real.sqrt 2) =
      1 - 1 / (1 + 4 * Real.sqrt 2) := by
    field_simp
  have hc : Real.exp ((Real.log (1 / (1 + 4 * Real.sqrt 2)) -
      Real.log (4 * Real.sqrt 2 / (1 + 4 * Real.sqrt 2))) /
      TEMPERATURE) = 1 / 2 := by
    have hratio : Real.log (1 / (1 + 4 * Real.sqrt 2)) -
        Real.log (4 * Real.sqrt 2 / (1 + 4 * Real.sqrt 2)) =
        -(Real.log 4 + Real.log (Real.sqrt 2)) := by
      rw [one_div, Real.log_inv,
        Real.log_div (by positivity) hDne,
        Real.log_mul (by norm_num) (ne_of_gt hspos)]
      ring
    have hlog4 : Real.log (4 : ℝ) = 2 * Real.log 2 := by
      rw [show (4 : ℝ) = 2 ^ 2 by norm_num, Real.log_pow]
      norm_num
    rw [hratio, hlog4, Real.log_sqrt (by norm_num), TEMPERATURE,
      show -(2 * Real.log 2 + Real.log 2 / 2) / (5 / 2) =
        -Real.log 2 by ring,
      Real.exp_neg, Real.exp_log (by norm_num : (0 : ℝ) < 2)]
    norm_num
  have heps : (epsilon : ℝ) = 1 / 10000000 := by rw [epsilon]
  have := calibrate_eval (by rw [TEMPERATURE]; norm_num)
    (by rw [heps]; linarith) (by rw [heps]; linarith)
    (by rw [heps, hp2eq]; linarith) (by rw [heps, hp2eq]; linarith)
    (by rw [hp2eq]; linarith) hc
  rw [this]
  norm_num

/-! ## Helper lemmas: rounding to two decimals -/

/-- Away from a tie, `⌊x + 1/2⌋` and `⌊1/2 - x⌋` cancel. -/
lemma floor_add_half_cancel {x : ℝ} (h : Int.fract x ≠ 1 / 2) :
    ⌊x + 1 / 2⌋ + ⌊1 / 2 - x⌋ = 0 := by
  have hx : (⌊x⌋ : ℝ) + Int.fract x = x := Int.floor_add_fract x
  have h0 : (0 : ℝ) ≤ Int.fract x := Int.fract_nonneg x
  have h1 : Int.fract x < 1 := Int.fract_lt_one x
  rcases h.lt_or_lt with hf | hf
  · have e1 : ⌊x + 1 / 2⌋ = ⌊x⌋ := by
      rw [Int.floor_eq_iff]
      constructor
      · linarith
      · linarith
    have e2 : ⌊1 / 2 - x⌋ = -⌊x⌋ := by
      rw [Int.floor_eq_iff]
      constructor
      · push_cast
        linarith
      · push_cast [Int.cast_neg]
        linarith
    omega
  · have e1 : ⌊x + 1 / 2⌋ = ⌊x⌋ + 1 := by
      rw [Int.floor_eq_iff]
      constructor
      · push_cast
        linarith
      · push_cast
        linarith
    have e2 : ⌊1 / 2 - x⌋ = -⌊x⌋ - 1 := by
      rw [Int.floor_eq_iff]
      constructor
      · push_cast
        linarith
      · push_cast
        linarith
    omega

/-- Away from a tie, rounding `x` and rounding `m - x` is exact. -/
lemma round_add_round_sub (m : ℤ) {x : ℝ} (h : Int.fract x ≠ 1 / 2) :
    round x + round ((m : ℝ) - x) = m := by
  rw [round_eq, round_eq]
  have hrw : (m : ℝ) - x + 1 / 2 = (m : ℝ) + (1 / 2 - x) := by ring
  rw [hrw, Int.floor_int_add]
  have := floor_add_half_cancel h
  omega

/-- A real whose half has fractional part `1/2` is an odd integer, so
its own fractional part cannot be `1/2`. -/
lemma fract_half_ne_half {t : ℝ} (h : Int.fract t = 1 / 2) :
    Int.fract (t / 2) ≠ 1 / 2 := by
  intro hc
  have h2 : (⌊t / 2⌋ : ℝ) + Int.fract (t / 2) = t / 2 :=
    Int.floor_add_fract (t / 2)
  have ht : t = ((2 * ⌊t / 2⌋ + 1 : ℤ) : ℝ) := by
    push_cast
    rw [hc] at h2
    linarith
  rw [ht, Int.fract_intCast] at h
  norm_num at h

/-- Banker's rounding of `t` and of `2*j - t` is exact for every even
integer target `2*j`. -/
lemma rhe_add_rhe_sub (j : ℤ) (t : ℝ) :
    rhe t + rhe (2 * (j : ℝ) - t) = 2 * j := by
  by_cases h : Int.fract t = 1 / 2
  · have hti : 2 * (j : ℝ) - t = ((2 * j : ℤ) : ℝ) + -t := by
      push_cast
      ring
    have hfr : Int.fract (2 * (j : ℝ) - t) = 1 / 2 := by
      rw [hti, Int.fract_int_add, Int.fract_neg (by rw [h]; norm_num), h]
      norm_num
    rw [rhe, rhe, if_pos h, if_pos hfr]
    have hhalf := fract_half_ne_half h
    have key := round_add_round_sub j hhalf
    have hdiv : (2 * (j : ℝ) - t) / 2 = (j : ℝ) - t / 2 := by ring
    rw [hdiv]
    omega
  · have hfr : Int.fract (2 * (j : ℝ) - t) ≠ 1 / 2 := by
      have hti : 2 * (j : ℝ) - t = ((2 * j : ℤ) : ℝ) + -t := by
        push_cast
        ring
      rw [hti, Int.fract_int_add]
      by_cases h0 : Int.fract t = 0
      · rw [Int.fract_neg_eq_zero.mpr h0]
        norm_num
      · rw [Int.fract_neg h0]
        intro hc
        exact h (by linarith)
    rw [rhe, rhe, if_neg h, if_neg hfr]
    have hti : 2 * (j : ℝ) - t = ((2 * j : ℤ) : ℝ) - t := by
      push_cast
      ring
    rw [hti]
    have := round_add_round_sub (2 * j) h
    omega

/-- Banker's rounding is the identity on integers. -/
lemma rhe_intCast (n : ℤ) : rhe (n : ℝ) = n := by
  rw [rhe, if_neg, round_intCast]
  rw [Int.fract_intCast]
  norm_num

/-- Evaluate banker's rounding away from a tie, given the enclosing
integer bounds for `x + 1/2`. -/
lemma rhe_eq_of_bounds {x : ℝ} {n : ℤ} (m : ℤ) (hm : (m : ℝ) ≤ x)
    (hm' : x < m + 1) (hne : x - m ≠ 1 / 2) (hn : (n : ℝ) ≤ x + 1 / 2)
    (hn' : x + 1 / 2 < n + 1) : rhe x = n := by
  have hfl : ⌊x⌋ = m := Int.floor_eq_iff.mpr ⟨hm, hm'⟩
  have hfr : Int.fract x ≠ 1 / 2 := by
    rw [Int.fract, hfl]
    exact hne
  rw [rhe, if_neg hfr, round_eq]
  exact Int.floor_eq_iff.mpr ⟨hn, hn'⟩

/-- Indexing a pair at its argmax yields its maximum (the `cls`
selection step of both `predict` variants). -/
lemma argmax_select_eq_pairMax (x : ℝ × ℝ) :
    (if pairArgmax x = 0 then x.1 else x.2) = pairMax x := by
  rw [pairArgmax, pairMax]
  by_cases h : x.1 < x.2
  · rw [if_pos h, if_neg (by norm_num : (1 : ℕ) ≠ 0), max_eq_right h.le]
  · rw [if_neg h, if_pos rfl, max_eq_left (not_lt.mp h)]

lemma rhe_20000_3 : rhe (20000 / 3 : ℝ) = 6667 :=
  rhe_eq_of_bounds 6666 (by norm_num) (by norm_num)
    (by norm_num) (by norm_num) (by norm_num)

lemma rhe_320000_33 : rhe (320000 / 33 : ℝ) = 9697 :=
  rhe_eq_of_bounds 9696 (by norm_num) (by norm_num)
    (by norm_num) (by norm_num) (by norm_num)

lemma round2_200_3 : round2 (200 / 3 : ℝ) = 6667 / 100 := by
  rw [round2, show (200 / 3 : ℝ) * 100 = 20000 / 3 by norm_num,
    rhe_20000_3]
  norm_num

lemma round2_3200_33 : round2 (3200 / 33 : ℝ) = 9697 / 100 := by
  rw [round2, show (3200 / 33 : ℝ) * 100 = 320000 / 33 by norm_num,
    rhe_320000_33]
  norm_num

lemma round2_80 : round2 (80 : ℝ) = 80 := by
  rw [round2, show (80 : ℝ) * 100 = ((8000 : ℤ) : ℝ) by norm_num,
    rhe_intCast]
  norm_num

/-- Two percentages obtained by rounding complementary probabilities to
two decimals sum to exactly 100 — banker's rounding sends the two ties
to opposite sides. -/
lemma round2_percent_sum {c1 c2 : ℝ} (h : c1 + c2 = 1) :
    round2 (c1 * 100) + round2 (c2 * 100) = 100 := by
  have key := rhe_add_rhe_sub 5000 (c1 * 100 * 100)
  rw [show (2 : ℝ) * ((5000 : ℤ) : ℝ) = 10000 by norm_num] at key
  have key' : rhe (c1 * 100 * 100) +
      rhe (10000 - c1 * 100 * 100) = 10000 := by omega
  have h2 : c2 * 100 * 100 = 10000 - c1 * 100 * 100 := by
    linear_combination 10000 * h
  rw [round2, round2, h2, div_add_div_same]
  have hsum : (rhe (c1 * 100 * 100) : ℝ) +
      (rhe (10000 - c1 * 100 * 100) : ℝ) = 10000 := by
    exact_mod_cast key'
  rw [hsum]
  norm_num

/-! ## Helper lemmas: the singleton accessor -/

/-- Once the module-level instance is cached, any sequence of further
calls leaves the state untouched and returns the cached instance to
every caller, whatever arguments they pass. -/
lemma runCalls_some (calls : List (Option String × ℚ))
    (inst : CalibratedClassifier) :
    runCalls (some inst) calls =
      (some inst, List.replicate calls.length inst) := by
  induction calls with
  | nil => rfl
  | cons c rest ih =>
      simp [runCalls, getClassifierCalibrated, ih, List.replicate_succ]

/-- The confidence field of the calibrated `predict` is the rounded
maximum calibrated score: indexing at the argmax selects the maximum. -/
lemma predictCalibrated_confidence (raw : ℝ × ℝ) :
    (predictCalibrated raw).confidence =
      round2 (pairMax (calibrate raw TEMPERATURE) * 100) := by
  show round2 ((if pairArgmax (calibrate raw TEMPERATURE) = 0 then
      (calibrate raw TEMPERATURE).1
    else (calibrate raw TEMPERATURE).2) * 100) = _
  rw [argmax_select_eq_pairMax]

/-- Same fact for the uncalibrated `predict`. -/
lemma predictUncalibrated_confidence (raw : ℝ × ℝ) :
    (predictUncalibrated raw).confidence = round2 (pairMax raw * 100) := by
  show round2 ((if pairArgmax raw = 0 then raw.1 else raw.2) * 100) = _
  rw [argmax_select_eq_pairMax]

/-! ## Claims -/

/-- C1, counterexample: at the raw softmax output
`(1/(1+4√2), 4√2/(1+4√2))` the calibrated scores are `(1/3, 2/3)`, so
`max(calibrated_scores) × 100 = 200/3 = 66.66…`, while the returned
confidence is rounded to two decimals (`66.67`); the stated exact
equality `confidence = max(calibrated_scores) × 100` fails. -/
theorem C1_confidence_counterexample :
    ¬ ((predictCalibrated (1 / (1 + 4 * Real.sqrt 2),
          4 * Real.sqrt 2 / (1 + 4 * Real.sqrt 2))).confidence =
        pairMax (calibrate (1 / (1 + 4 * Real.sqrt 2),
          4 * Real.sqrt 2 / (1 + 4 * Real.sqrt 2)) TEMPERATURE) * 100) := by
  rw [predictCalibrated_confidence, calibrate_sqrt2, pairMax]
  simp only
  rw [max_eq_right (by norm_num : (1 / 3 : ℝ) ≤ 2 / 3),
    show (2 / 3 : ℝ) * 100 = 200 / 3 by norm_num, round2_200_3]
  norm_num

/-- C1 (amended): for every successful prediction, the returned
confidence equals `max(calibrated_scores) × 100` rounded to two
decimals (Python `round(·, 2)`), and the label equals
`argmax(calibrated_scores)` under the mapping 0 → "NORMAL",
1 → "ABNORMAL". -/
theorem C1_result_invariant (raw : ℝ × ℝ) :
    (predictCalibrated raw).confidence =
        round2 (pairMax (calibrate raw TEMPERATURE) * 100) ∧
      (predictCalibrated raw).label =
        (if pairArgmax (calibrate raw TEMPERATURE) = 0 then "NORMAL"
          else "ABNORMAL") :=
  ⟨predictCalibrated_confidence raw, rfl⟩

/-- C2: calibration is rank-preserving — for every raw ClassScores pair
`(p, 1-p)` and every temperature `T > 0`, the argmax of the calibrated
pair equals the argmax of the raw pair. -/
theorem C2_calibration_rank_preserving (p T : ℝ) (_hp0 : 0 ≤ p)
    (_hp1 : p ≤ 1) (hT : 0 < T) :
    pairArgmax (calibrate (p, 1 - p) T) = pairArgmax (p, 1 - p) :=
  pairArgmax_calibrate hT

/-- Witness for C2 at the concrete raw pair `(3/4, 1/4)` and `T = 2`. -/
theorem C2_calibration_rank_preserving_witness :
    (0 : ℝ) ≤ 3 / 4 ∧ (3 / 4 : ℝ) ≤ 1 ∧ (0 : ℝ) < 2 ∧
      pairArgmax (calibrate (3 / 4, 1 - 3 / 4) 2) =
        pairArgmax (3 / 4, 1 - 3 / 4) :=
  ⟨by norm_num, by norm_num, by norm_num,
    C2_calibration_rank_preserving (3 / 4) 2 (by norm_num) (by norm_num)
      (by norm_num)⟩

/-- C3: the calibration step of `predict` — clip, log, divide by the
temperature, softmax with max-subtraction — equals the reference
definition: plain softmax applied to
`log(clip(p, 1e-7, 1-1e-7)) / TEMPERATURE`; the max-subtraction trick
does not change the value. -/
theorem C3_calibration_matches_reference (raw : ℝ × ℝ) :
    calibrate raw TEMPERATURE = calibrateSpec raw TEMPERATURE := by
  rw [calibrate, calibrateSpec, applyTemperatureScaling_eq_softmax]

/-- C4, counterexample: the upload route (`run_ai_analysis`, which
imports the uncalibrated `get_classifier`) and the calibrated service
disagree on the confidence at the raw softmax output `(1/33, 32/33)`:
the route reports `96.97`, the calibrated variant `80.0`. -/
theorem C4_route_counterexample :
    (runAiAnalysis (1 / 33, 32 / 33)).confidence ≠
      (predictCalibrated (1 / 33, 32 / 33)).confidence := by
  have huncal : (runAiAnalysis (1 / 33, 32 / 33)).confidence =
      9697 / 100 := by
    rw [runAiAnalysis, predictUncalibrated_confidence, pairMax]
    simp only
    rw [max_eq_right (by norm_num : (1 / 33 : ℝ) ≤ 32 / 33),
      show (32 / 33 : ℝ) * 100 = 3200 / 33 by norm_num, round2_3200_33]
  have hcal : (predictCalibrated (1 / 33, 32 / 33)).confidence = 80 := by
    rw [predictCalibrated_confidence, calibrate_one33, pairMax]
    simp only
    rw [max_eq_right (by norm_num : (1 / 5 : ℝ) ≤ 4 / 5),
      show (4 / 5 : ℝ) * 100 = 80 by norm_num, round2_80]
  rw [huncal, hcal]
  norm_num

/-- C4 (amended): the upload route invokes the *uncalibrated*
classifier (`app.services.ai_service.get_classifier`), so results do
not pass through the Calibrator; because calibration is
rank-preserving the route computes the same *label* as the calibrated
variant on every raw ClassScores pair, but not the same confidence. -/
theorem C4_route_label_agrees (p : ℝ) (_hp0 : 0 ≤ p) (_hp1 : p ≤ 1) :
    (runAiAnalysis (p, 1 - p)).label =
      (predictCalibrated (p, 1 - p)).label := by
  show (if pairArgmax (p, 1 - p) = 0 then "NORMAL" else "ABNORMAL") =
    (if pairArgmax (calibrate (p, 1 - p) TEMPERATURE) = 0 then "NORMAL"
      else "ABNORMAL")
  rw [pairArgmax_calibrate (by rw [TEMPERATURE]; norm_num)]

/-- Witness for C4 (amended) at the concrete raw pair `(3/4, 1/4)`. -/
theorem C4_route_label_agrees_witness :
    (0 : ℝ) ≤ 3 / 4 ∧ (3 / 4 : ℝ) ≤ 1 ∧
      (runAiAnalysis (3 / 4, 1 - 3 / 4)).label =
        (predictCalibrated (3 / 4, 1 - 3 / 4)).label :=
  ⟨by norm_num, by norm_num,
    C4_route_label_agrees (3 / 4) (by norm_num) (by norm_num)⟩

/-- C5: normalization to fixed length is a deterministic prefix /
zero-pad — audio longer than 6000 samples keeps exactly its first 6000
samples; shorter audio is extended with trailing zeros to length 6000;
in particular a 1.0 s input at the target rate (2000 samples) has its
last `(DURATION - 1.0) × FS_TARGET = 4000` samples equal to zero. -/
theorem C5_pad_or_trim (audio : List ℝ) :
    (maxLen < audio.length → padOrTrim audio = audio.take maxLen) ∧
      (audio.length ≤ maxLen →
        padOrTrim audio =
          audio ++ List.replicate (maxLen - audio.length) 0) ∧
      (audio.length = FS_TARGET →
        (padOrTrim audio).drop FS_TARGET = List.replicate 4000 0) := by
  refine ⟨fun h => by rw [padOrTrim, if_pos h],
    fun h => by rw [padOrTrim, if_neg (not_lt.mpr h)], fun h => ?_⟩
  rw [padOrTrim, if_neg (by rw [h]; norm_num [maxLen, FS_TARGET]), h,
    show maxLen - FS_TARGET = 4000 by norm_num [maxLen, FS_TARGET],
    List.drop_left' h]

/-- Witness for C5: a 10 s input (20000 samples of ones) is truncated
to its first 6000 samples; a 1 s input (2000 samples of ones) is
zero-padded, and its normalized form ends in 4000 zeros. -/
theorem C5_pad_or_trim_witness :
    padOrTrim (List.replicate 20000 (1 : ℝ)) =
        (List.replicate 20000 (1 : ℝ)).take maxLen ∧
      padOrTrim (List.replicate 2000 (1 : ℝ)) =
        List.replicate 2000 (1 : ℝ) ++
          List.replicate (maxLen - (List.replicate 2000 (1 : ℝ)).length)
            0 ∧
      (padOrTrim (List.replicate 2000 (1 : ℝ))).drop FS_TARGET =
        List.replicate 4000 0 :=
  ⟨(C5_pad_or_trim _).1
      (by rw [List.length_replicate]; norm_num [maxLen]),
    (C5_pad_or_trim _).2.1
      (by rw [List.length_replicate]; norm_num [maxLen]),
    (C5_pad_or_trim _).2.2
      (by rw [List.length_replicate, FS_TARGET])⟩

/-- C6: shape invariance — for any decoded audio whatsoever, the
analog branch produces a feature of length exactly `ANALOG_LEN = 250`
and the spectral branch a feature of exactly `MFCC_LEN = 38` frames
with `N_MFCC = 20` coefficients each, assuming only the library
contracts that `scipy.signal.resample(x, num)` returns `num` samples
and that `librosa` MFCC frames carry `N_MFCC` coefficients. -/
theorem C6_shape_invariance (filtfilt : List ℝ → List ℝ)
    (sciResample : List ℝ → ℕ → List ℝ) (mfcc : List ℝ → List (List ℝ))
    (hres : ∀ x n, (sciResample x n).length = n)
    (hmfcc : ∀ x, ∀ row ∈ mfcc x, row.length = N_MFCC)
    (audio : List ℝ) :
    (preprocessAnalog filtfilt sciResample audio).length = ANALOG_LEN ∧
      (preprocessMfcc mfcc audio).length = MFCC_LEN ∧
      ∀ row ∈ preprocessMfcc mfcc audio, row.length = N_MFCC := by
  refine ⟨hres _ _, ?_, ?_⟩
  · rw [preprocessMfcc, mfccPadTrim]
    by_cases h : MFCC_LEN < (mfcc (padOrTrim audio)).length
    · rw [if_pos h, List.length_take]
      omega
    · rw [if_neg h, List.length_append, List.length_replicate]
      omega
  · intro row hrow
    rw [preprocessMfcc, mfccPadTrim] at hrow
    by_cases h : MFCC_LEN < (mfcc (padOrTrim audio)).length
    · rw [if_pos h] at hrow
      exact hmfcc _ row (List.take_subset _ _ hrow)
    · rw [if_neg h] at hrow
      rcases List.mem_append.mp hrow with hmem | hmem
      · exact hmfcc _ row hmem
      · rw [List.eq_of_mem_replicate hmem, List.length_replicate]

/-- Witness for C6 with concrete library stand-ins (identity filter,
a resampler returning `n` zeros, an MFCC returning no frames) on the
one-sample input `[1]`. -/
theorem C6_shape_invariance_witness :
    (∀ (x : List ℝ) (n : ℕ),
        ((fun (_ : List ℝ) (n : ℕ) => List.replicate n (0 : ℝ)) x
          n).length = n) ∧
      (∀ x : List ℝ,
        ∀ row ∈ (fun (_ : List ℝ) => ([] : List (List ℝ))) x,
          row.length = N_MFCC) ∧
      (preprocessAnalog id (fun _ n => List.replicate n 0)
          [(1 : ℝ)]).length = ANALOG_LEN ∧
      (preprocessMfcc (fun _ => []) [(1 : ℝ)]).length = MFCC_LEN ∧
      ∀ row ∈ preprocessMfcc (fun (_ : List ℝ) => ([] : List (List ℝ)))
        [(1 : ℝ)], row.length = N_MFCC := by
  have h1 : ∀ (x : List ℝ) (n : ℕ),
      ((fun (_ : List ℝ) (n : ℕ) => List.replicate n (0 : ℝ)) x
        n).length = n := fun _ n => List.length_replicate n 0
  have h2 : ∀ x : List ℝ,
      ∀ row ∈ (fun (_ : List ℝ) => ([] : List (List ℝ))) x,
        row.length = N_MFCC := by simp
  have main := C6_shape_invariance id (fun _ n => List.replicate n 0)
    (fun _ => []) h1 h2 [(1 : ℝ)]
  exact ⟨h1, h2, main.1, main.2.1, main.2.2⟩

/-- C7: calibration confidence is strictly monotone in temperature —
for every fixed raw ClassScores pair `(p, 1-p)` with `p ≠ 1/2`,
increasing the temperature strictly decreases the maximum calibrated
score. -/
theorem C7_confidence_strictly_decreasing (p T1 T2 : ℝ) (_hp0 : 0 ≤ p)
    (_hp1 : p ≤ 1) (hp : p ≠ 1 / 2) (hT1 : 0 < T1) (hT12 : T1 < T2) :
    pairMax (calibrate (p, 1 - p) T2) <
      pairMax (calibrate (p, 1 - p) T1) := by
  rw [calibrate, calibrate]
  exact pairMax_applyTemperatureScaling_strictAnti (log_clipProb_ne hp)
    hT1 hT12

/-- Witness for C7 at the concrete raw pair `(3/4, 1/4)` and
temperatures `1 < 2`. -/
theorem C7_confidence_strictly_decreasing_witness :
    (0 : ℝ) ≤ 3 / 4 ∧ (3 / 4 : ℝ) ≤ 1 ∧ (3 / 4 : ℝ) ≠ 1 / 2 ∧
      (0 : ℝ) < 1 ∧ (1 : ℝ) < 2 ∧
      pairMax (calibrate (3 / 4, 1 - 3 / 4) 2) <
        pairMax (calibrate (3 / 4, 1 - 3 / 4) 1) :=
  ⟨by norm_num, by norm_num, by norm_num, by norm_num, by norm_num,
    C7_confidence_strictly_decreasing (3 / 4) 1 2 (by norm_num)
      (by norm_num) (by norm_num) (by norm_num) (by norm_num)⟩

/-- C8: the probability pair in every prediction result is
normalized — the calibrated probabilities sum to exactly 1 (hence
within ±1e-6 of 1.0), and the reported `probability_normal` and
`probability_abnormal` percentage fields sum to exactly 100. -/
theorem C8_probabilities_normalized (raw : ℝ × ℝ) :
    (calibrate raw TEMPERATURE).1 + (calibrate raw TEMPERATURE).2 = 1 ∧
      (predictCalibrated raw).probNormal +
        (predictCalibrated raw).probAbnormal = 100 := by
  refine ⟨calibrate_sum raw TEMPERATURE, ?_⟩
  show round2 ((calibrate raw TEMPERATURE).1 * 100) +
    round2 ((calibrate raw TEMPERATURE).2 * 100) = 100
  exact round2_percent_sum (calibrate_sum raw TEMPERATURE)

/-- C10: the classifier accessor is a lazy singleton — starting from an
empty module-level state, the first call constructs (and thereby loads)
the instance from its arguments, the state then holds that instance
forever, and every call in the sequence returns that identical first
instance, regardless of the `model_path` or `temperature` arguments
passed on later calls. -/
theorem C10_singleton_loads_once (mp0 : Option String) (t0 : ℚ)
    (rest : List (Option String × ℚ)) :
    (runCalls none ((mp0, t0) :: rest)).1 =
        some (initClassifier (mp0.getD defaultModelPath) t0) ∧
      ∀ inst ∈ (runCalls none ((mp0, t0) :: rest)).2,
        inst = initClassifier (mp0.getD defaultModelPath) t0 := by
  have hrun : runCalls none ((mp0, t0) :: rest) =
      (some (initClassifier (mp0.getD defaultModelPath) t0),
        initClassifier (mp0.getD defaultModelPath) t0 ::
          List.replicate rest.length
            (initClassifier (mp0.getD defaultModelPath) t0)) := by
    rw [runCalls]
    simp only [getClassifierCalibrated, runCalls_some]
  rw [hrun]
  refine ⟨rfl, fun inst hinst => ?_⟩
  rcases List.mem_cons.mp hinst with h | h
  · exact h
  · exact List.eq_of_mem_replicate h

/-- Witness for C10: two concrete calls, the second with a different
model path and temperature; the state caches the first instance and
the theorem applies to a member of the returned trace. -/
theorem C10_singleton_loads_once_witness :
    initClassifier defaultModelPath (3 : ℚ) ∈
        (runCalls none [((none : Option String), (3 : ℚ)),
          (some "other.h5", (10 : ℚ))]).2 ∧
      initClassifier defaultModelPath (3 : ℚ) =
        initClassifier ((none : Option String).getD defaultModelPath)
          (3 : ℚ) := by
  have hm : initClassifier defaultModelPath (3 : ℚ) ∈
      (runCalls none [((none : Option String), (3 : ℚ)),
        (some "other.h5", (10 : ℚ))]).2 := by
    rw [runCalls]
    simp only [getClassifierCalibrated, runCalls_some, Option.getD_none]
    simp
  exact ⟨hm,
    (C10_singleton_loads_once none 3 [(some "other.h5", 10)]).2 _ hm⟩

end CardioSense
